import Mathlib

/-!
Shallow embedding of the eCommerce-System microservices (order, product,
customer) for specification verification.

Each Go handler is embedded as a pure Lean function over an explicit state:
  * the order service's DynamoDB table is a list of items, each item an
    association list of attribute names to attribute values (string-typed
    values `AttrVal.S v`, any non-string-typed value `AttrVal.other`);
    `PutItem` on the key attribute `id` replaces the item with the same key
    and never reports a uniqueness violation (DynamoDB put is an upsert);
  * the product/customer services hold a relational table (list of rows,
    the primary key column being the `ID` field; `INSERT` fails on a
    duplicate primary key) and a Redis cache (association list from key to
    cached bytes);
  * transient failures of the external clients (Redis transport, MySQL /
    DynamoDB / S3 availability) are modelled by boolean flags in an
    environment record: the handler's behaviour is a function of state,
    request and environment;
  * Go's `json.Marshal` on a struct of three string fields always succeeds
    and is inverted by `json.Unmarshal`; cached bytes are modelled by an
    inductive that is either such an encoding or any other byte string
    (which fails to unmarshal);
  * the S3 export document is modelled as a JSON value (`Json`); Go renders
    a JSON value to bytes deterministically, so equal `Json` values mean
    byte-identical objects.  Note `json.Marshal` of a nil Go slice renders
    the document `null`, not `[]`; the scan in `getAllOrdersFromDynamoDB`
    builds its slice with `append` starting from nil, so the slice is nil
    exactly when the table scan returned zero items.
-/

/-- HTTP response of a handler; `ok` carries the JSON-rendered record of the
entity type. `okMsg` is a 200 with a static message body, `created` a 201
with a static message body. -/
inductive Resp (α : Type) where
  | ok (a : α)
  | okMsg
  | created
  | badRequest
  | notFound
  | serverError
deriving DecidableEq, Repr

/-- HTTP status code of a response. -/
def Resp.status {α : Type} : Resp α → Nat
  | .ok _ => 200
  | .okMsg => 200
  | .created => 201
  | .badRequest => 400
  | .notFound => 404
  | .serverError => 500

/-- A JSON document, used to model the bytes written to the object store.
Go's encoder renders a JSON value to bytes deterministically, so equality of
`Json` values models byte-identical object content. -/
inductive Json where
  | null
  | str (s : String)
  | arr (elems : List Json)
  | obj (fields : List (String × Json))

namespace OrderSvc

/-- `Order` record of order.go: three string fields `id`, `customerid`,
`productid`. -/
structure Order where
  ID : String
  CustomerID : String
  ProductID : String
deriving DecidableEq, Repr

/-- A DynamoDB attribute value: either a string-typed value (`S`) or a value
of any other DynamoDB type (number, binary, bool, ...), which the Go code's
type assertion `.(*types.AttributeValueMemberS)` rejects. -/
inductive AttrVal where
  | S (v : String)
  | other
deriving DecidableEq, Repr

/-- A DynamoDB item: attribute name to attribute value. -/
abbrev DynItem := List (String × AttrVal)

/-- The order table: the set of items currently stored, as a list. -/
abbrev OrderTable := List DynItem

/-- The S3 bucket contents: object key to the JSON document stored there. -/
abbrev S3State := List (String × Json)

/-- Transient-failure environment for the order service: whether the
DynamoDB call errors, and whether the S3 put errors. -/
structure OEnv where
  dynErr : Bool
  s3Err : Bool
deriving DecidableEq, Repr

/-- Look up an attribute in an item. -/
def getAttr (item : DynItem) (k : String) : Option AttrVal :=
  (item.find? (fun a => a.1 == k)).map (fun a => a.2)

/-- The key of an item: its `id` attribute when string-typed. -/
def itemKey (item : DynItem) : Option String :=
  match getAttr item "id" with
  | some (.S v) => some v
  | _ => none

/-- DynamoDB `GetItem` on the `order` table with key attribute `id`. -/
def getItem (t : OrderTable) (k : String) : Option DynItem :=
  t.find? (fun it => itemKey it == some k)

/-- DynamoDB `PutItem`: unconditional upsert, replaces any item with the
same key; no uniqueness constraint exists. -/
def putItem (t : OrderTable) (item : DynItem) : OrderTable :=
  item :: t.filter (fun it => itemKey it != itemKey item)

/-- The decoding of a stored item into an `Order` performed inline in
`getOrderFromDynamoDB` (order.go lines 130-139) and in the scan loop of
`getAllOrdersFromDynamoDB` (lines 181-190): each attribute is taken when
present and string-typed, otherwise the field keeps Go's zero value `""`. -/
def decodeOrderItem (item : DynItem) : Order :=
  { ID := match getAttr item "id" with
      | some (.S v) => v
      | _ => ""
    CustomerID := match getAttr item "customerid" with
      | some (.S v) => v
      | _ => ""
    ProductID := match getAttr item "productid" with
      | some (.S v) => v
      | _ => "" }

/-- The item written by `saveOrderToDynamoDB` (order.go lines 146-159):
all three attributes string-typed. -/
def orderToItem (o : Order) : DynItem :=
  [("id", .S o.ID), ("customerid", .S o.CustomerID), ("productid", .S o.ProductID)]

/-- order.go `getOrderFromDynamoDB`: on a client error return the error;
on `result.Item == nil` return `(nil, nil)`; otherwise decode. -/
def getOrderFromDynamoDB (env : OEnv) (t : OrderTable) (orderID : String) :
    Except Unit (Option Order) :=
  if env.dynErr then .error ()
  else .ok ((getItem t orderID).map decodeOrderItem)

/-- order.go `getOrder` handler: error from DynamoDB gives 500, nil order
gives 404, otherwise 200 with the order. -/
def getOrder (env : OEnv) (t : OrderTable) (orderID : String) : Resp Order :=
  match getOrderFromDynamoDB env t orderID with
  | .error _ => .serverError
  | .ok none => .notFound
  | .ok (some o) => .ok o

/-- order.go `saveOrderToDynamoDB`: `PutItem` of the three attributes,
propagating a client error. -/
def saveOrderToDynamoDB (env : OEnv) (t : OrderTable) (o : Order) :
    Except Unit OrderTable :=
  if env.dynErr then .error ()
  else .ok (putItem t (orderToItem o))

/-- order.go `createOrder` handler: a body that fails `ShouldBindJSON` is
modelled by `none` and gives 400 before any store access; a save error
gives 500; otherwise 201. Returns the response and the new table. -/
def createOrder (env : OEnv) (t : OrderTable) (body : Option Order) :
    Resp Order × OrderTable :=
  match body with
  | none => (.badRequest, t)
  | some o =>
    match saveOrderToDynamoDB env t o with
    | .error _ => (.serverError, t)
    | .ok t2 => (.created, t2)

/-- order.go `getAllOrdersFromDynamoDB`: full `Scan`, error propagated,
every returned item decoded with the same lossy per-attribute decoding. -/
def getAllOrdersFromDynamoDB (env : OEnv) (t : OrderTable) :
    Except Unit (List Order) :=
  if env.dynErr then .error ()
  else .ok (t.map decodeOrderItem)

/-- JSON object rendered by `json.Marshal` for one `Order`. -/
def orderJson (o : Order) : Json :=
  .obj [("id", .str o.ID), ("customerid", .str o.CustomerID), ("productid", .str o.ProductID)]

/-- `json.Marshal(orders)` where `orders` is the Go slice built by the scan
loop: the slice starts as nil and is only appended to, so it is nil exactly
when the list is empty, and Go marshals a nil slice to the document `null`,
a non-nil slice to a JSON array. -/
def jsonMarshalOrders (orders : List Order) : Json :=
  if orders.isEmpty then .null else .arr (orders.map orderJson)

/-- order.go `saveDataToS3`: `PutObject` under the fixed key
`orders_data.json`, replacing any previous object under that key. -/
def saveDataToS3 (env : OEnv) (s3 : S3State) (data : Json) :
    Except Unit S3State :=
  if env.s3Err then .error ()
  else .ok (("orders_data.json", data) :: s3.filter (fun kv => kv.1 != "orders_data.json"))

/-- Look up an object in the bucket by key. -/
def s3Get (s3 : S3State) (k : String) : Option Json :=
  (s3.find? (fun kv => kv.1 == k)).map (fun kv => kv.2)

/-- order.go `saveOrdersToS3` handler: scan, marshal, put; any failure gives
500 with the bucket unchanged, success gives 200. Returns the response and
the new bucket state. -/
def saveOrdersToS3 (env : OEnv) (t : OrderTable) (s3 : S3State) :
    Resp Order × S3State :=
  match getAllOrdersFromDynamoDB env t with
  | .error _ => (.serverError, s3)
  | .ok orders =>
    match saveDataToS3 env s3 (jsonMarshalOrders orders) with
    | .error _ => (.serverError, s3)
    | .ok s3b => (.okMsg, s3b)

end OrderSvc

namespace ProductSvc

/-- `Product` record of product.go: three string fields `id`, `name`,
`category`. -/
structure Product where
  ID : String
  Name : String
  Category : String
deriving DecidableEq, Repr

/-- Bytes stored in the Redis cache: either the output of `json.Marshal` on
a `Product` (which `json.Unmarshal` inverts) or any other byte string
(which fails to unmarshal into a `Product`). -/
inductive PBytes where
  | enc (p : Product)
  | raw (s : String)
deriving DecidableEq, Repr

/-- `json.Marshal` on a struct of three string fields: always succeeds. -/
def jsonMarshalProduct (p : Product) : PBytes := .enc p

/-- `json.Unmarshal` of cached bytes into a `Product`. -/
def jsonUnmarshalProduct : PBytes → Option Product
  | .enc p => some p
  | .raw _ => none

/-- Transient-failure environment for the product service: whether the
Redis `Get` errors (other than `redis.Nil`), whether the Redis `Set`
errors, and whether the MySQL call errors. -/
structure PEnv where
  cacheGetErr : Bool
  cacheSetErr : Bool
  dbErr : Bool
deriving DecidableEq, Repr

/-- Service state: the `product` relational table (rows keyed by the
primary-key column `id`) and the Redis cache. -/
structure PState where
  db : List Product
  cache : List (String × PBytes)
deriving DecidableEq, Repr

/-- Redis `GET key`. -/
def cacheGet (st : PState) (k : String) : Option PBytes :=
  (st.cache.find? (fun kv => kv.1 == k)).map (fun kv => kv.2)

/-- Redis `SET key value 0` (no expiry): replaces any previous value. -/
def cacheSet (st : PState) (k : String) (v : PBytes) : PState :=
  { st with cache := (k, v) :: st.cache.filter (fun kv => kv.1 != k) }

/-- `SELECT id, name, category FROM product WHERE id = ?`. -/
def dbSelect (db : List Product) (id : String) : Option Product :=
  db.find? (fun p => p.ID == id)

/-- product.go `getFromCache`: a Redis transport error or an unmarshal
failure is an error; `redis.Nil` is the definitive miss `(nil, nil)`;
otherwise the decoded product. -/
def getFromCache (env : PEnv) (st : PState) (productID : String) :
    Except Unit (Option Product) :=
  if env.cacheGetErr then .error ()
  else
    match cacheGet st productID with
    | none => .ok none
    | some val =>
      match jsonUnmarshalProduct val with
      | none => .error ()
      | some p => .ok (some p)

/-- product.go `getFromDB`: `db.Get` returns an error both on a technical
failure and on `sql.ErrNoRows` when the row is absent; the two are not
distinguished. -/
def getFromDB (env : PEnv) (st : PState) (productID : String) :
    Except Unit Product :=
  if env.dbErr then .error ()
  else
    match dbSelect st.db productID with
    | none => .error ()
    | some p => .ok p

/-- product.go `saveToCache`: marshal (always succeeds for this struct) and
`SET` with no expiry; a `SET` failure is logged and swallowed, leaving the
cache unchanged. -/
def saveToCache (env : PEnv) (st : PState) (p : Product) : PState :=
  if env.cacheSetErr then st
  else cacheSet st p.ID (jsonMarshalProduct p)

/-- product.go `saveToDB`: `INSERT INTO product (id, name, category)`; the
primary key constraint on `id` makes the insert fail on a duplicate id, and
any technical failure also errors. -/
def saveToDB (env : PEnv) (st : PState) (p : Product) :
    Except Unit PState :=
  if env.dbErr then .error ()
  else if (dbSelect st.db p.ID).isSome then .error ()
  else .ok { st with db := p :: st.db }

/-- product.go `getProduct` handler: cache error gives 500; cache hit gives
200 with the cached record; miss falls through to the DB, whose error gives
500; on a DB hit the record is best-effort cached and returned with 200.
Returns the response and the new state. -/
def getProduct (env : PEnv) (st : PState) (productID : String) :
    Resp Product × PState :=
  match getFromCache env st productID with
  | .error _ => (.serverError, st)
  | .ok (some p) => (.ok p, st)
  | .ok none =>
    match getFromDB env st productID with
    | .error _ => (.serverError, st)
    | .ok p => (.ok p, saveToCache env st p)

/-- product.go `createProduct` handler: a body failing `ShouldBindJSON` is
modelled by `none` and gives 400 before any store access; a DB insert error
gives 500 with nothing written; otherwise the record is best-effort cached
and 201 returned. -/
def createProduct (env : PEnv) (st : PState) (body : Option Product) :
    Resp Product × PState :=
  match body with
  | none => (.badRequest, st)
  | some product =>
    match saveToDB env st product with
    | .error _ => (.serverError, st)
    | .ok st2 => (.created, saveToCache env st2 product)

/-- One inbound request of the product service. -/
inductive PReq where
  | getq (id : String)
  | createq (body : Option Product)

/-- State transition of one request, under that request's own
transient-failure environment. -/
def pStep (st : PState) (r : PEnv × PReq) : PState :=
  match r.2 with
  | .getq id => (getProduct r.1 st id).2
  | .createq body => (createProduct r.1 st body).2

/-- State after a sequence of requests starting from the empty system. -/
def pRun (l : List (PEnv × PReq)) : PState :=
  l.foldl pStep ⟨[], []⟩

/-- Cache coherence: every cache entry decodes to exactly the row stored in
the relational table under the same id. -/
def pInv (st : PState) : Prop :=
  ∀ kv ∈ st.cache, ∃ p, dbSelect st.db kv.1 = some p ∧
    jsonUnmarshalProduct kv.2 = some p

end ProductSvc

namespace CustomerSvc

/-- `Customer` record of customer.go: three string fields `id`, `name`,
`gender`. -/
structure Customer where
  ID : String
  Name : String
  Gender : String
deriving DecidableEq, Repr

/-- Bytes stored in the Redis cache: either the output of `json.Marshal` on
a `Customer` or any other byte string. -/
inductive CBytes where
  | enc (c : Customer)
  | raw (s : String)
deriving DecidableEq, Repr

/-- `json.Marshal` on a struct of three string fields: always succeeds. -/
def jsonMarshalCustomer (c : Customer) : CBytes := .enc c

/-- `json.Unmarshal` of cached bytes into a `Customer`. -/
def jsonUnmarshalCustomer : CBytes → Option Customer
  | .enc c => some c
  | .raw _ => none

/-- Transient-failure environment for the customer service. -/
structure CEnv where
  cacheGetErr : Bool
  cacheSetErr : Bool
  dbErr : Bool
deriving DecidableEq, Repr

/-- Service state: the `customers` relational table and the Redis cache. -/
structure CState where
  db : List Customer
  cache : List (String × CBytes)
deriving DecidableEq, Repr

/-- Redis `GET key`. -/
def cacheGet (st : CState) (k : String) : Option CBytes :=
  (st.cache.find? (fun kv => kv.1 == k)).map (fun kv => kv.2)

/-- Redis `SET key value 0` (no expiry): replaces any previous value. -/
def cacheSet (st : CState) (k : String) (v : CBytes) : CState :=
  { st with cache := (k, v) :: st.cache.filter (fun kv => kv.1 != k) }

/-- `SELECT id, name, gender FROM customers WHERE id = ?`. -/
def dbSelect (db : List Customer) (id : String) : Option Customer :=
  db.find? (fun c => c.ID == id)

/-- customer.go `getFromCache`: same structure as the product service. -/
def getFromCache (env : CEnv) (st : CState) (customerID : String) :
    Except Unit (Option Customer) :=
  if env.cacheGetErr then .error ()
  else
    match cacheGet st customerID with
    | none => .ok none
    | some val =>
      match jsonUnmarshalCustomer val with
      | none => .error ()
      | some c => .ok (some c)

/-- customer.go `getFromDB`: `db.Get` errors both on technical failure and
on an absent row. -/
def getFromDB (env : CEnv) (st : CState) (customerID : String) :
    Except Unit Customer :=
  if env.dbErr then .error ()
  else
    match dbSelect st.db customerID with
    | none => .error ()
    | some c => .ok c

/-- customer.go `saveToCache`: best-effort `SET` with no expiry; a failure
is swallowed. -/
def saveToCache (env : CEnv) (st : CState) (c : Customer) : CState :=
  if env.cacheSetErr then st
  else cacheSet st c.ID (jsonMarshalCustomer c)

/-- customer.go `saveToDB`: `INSERT INTO customers (id, name, gender)`;
fails on a duplicate primary key or a technical failure. -/
def saveToDB (env : CEnv) (st : CState) (c : Customer) :
    Except Unit CState :=
  if env.dbErr then .error ()
  else if (dbSelect st.db c.ID).isSome then .error ()
  else .ok { st with db := c :: st.db }

/-- customer.go `getCustomer` handler: same structure as `getProduct`. -/
def getCustomer (env : CEnv) (st : CState) (customerID : String) :
    Resp Customer × CState :=
  match getFromCache env st customerID with
  | .error _ => (.serverError, st)
  | .ok (some c) => (.ok c, st)
  | .ok none =>
    match getFromDB env st customerID with
    | .error _ => (.serverError, st)
    | .ok c => (.ok c, saveToCache env st c)

/-- customer.go `createCustomer` handler: same structure as
`createProduct`. -/
def createCustomer (env : CEnv) (st : CState) (body : Option Customer) :
    Resp Customer × CState :=
  match body with
  | none => (.badRequest, st)
  | some customer =>
    match saveToDB env st customer with
    | .error _ => (.serverError, st)
    | .ok st2 => (.created, saveToCache env st2 customer)

/-- One inbound request of the customer service. -/
inductive CReq where
  | getq (id : String)
  | createq (body : Option Customer)

/-- State transition of one request. -/
def cStep (st : CState) (r : CEnv × CReq) : CState :=
  match r.2 with
  | .getq id => (getCustomer r.1 st id).2
  | .createq body => (createCustomer r.1 st body).2

/-- State after a sequence of requests starting from the empty system. -/
def cRun (l : List (CEnv × CReq)) : CState :=
  l.foldl cStep ⟨[], []⟩

/-- Cache coherence: every cache entry decodes to exactly the row stored in
the relational table under the same id. -/
def cInv (st : CState) : Prop :=
  ∀ kv ∈ st.cache, ∃ c, dbSelect st.db kv.1 = some c ∧
    jsonUnmarshalCustomer kv.2 = some c

end CustomerSvc

/-! ## Helper lemmas -/

namespace OrderSvc

theorem itemKey_orderToItem (o : Order) : itemKey (orderToItem o) = some o.ID := by
  simp [itemKey, orderToItem, getAttr]

theorem decodeOrderItem_orderToItem (o : Order) :
    decodeOrderItem (orderToItem o) = o := by
  cases o
  simp [decodeOrderItem, orderToItem, getAttr]

theorem getItem_putItem_self (t : OrderTable) (o : Order) :
    getItem (putItem t (orderToItem o)) o.ID = some (orderToItem o) := by
  simp [getItem, putItem, itemKey_orderToItem]

end OrderSvc

namespace ProductSvc

theorem dbSelect_cons_self (db : List Product) (p : Product) :
    dbSelect (p :: db) p.ID = some p := by
  simp [dbSelect]

theorem cacheGet_cacheSet_self (st : PState) (k : String) (v : PBytes) :
    cacheGet (cacheSet st k v) k = some v := by
  simp [cacheGet, cacheSet]

theorem getProduct_shape (env : PEnv) (st : PState) (id : String) :
    (getProduct env st id).1 = .serverError ∨
      ∃ p, (getProduct env st id).1 = .ok p := by
  unfold getProduct
  cases hc : getFromCache env st id with
  | error e => exact Or.inl rfl
  | ok ov =>
    cases ov with
    | none =>
      cases hd : getFromDB env st id with
      | error e => exact Or.inl rfl
      | ok p => exact Or.inr ⟨p, rfl⟩
    | some p => exact Or.inr ⟨p, rfl⟩

end ProductSvc

namespace CustomerSvc

theorem dbSelect_cons_self_c (db : List Customer) (c : Customer) :
    dbSelect (c :: db) c.ID = some c := by
  simp [dbSelect]

theorem cacheGet_cacheSet_self_c (st : CState) (k : String) (v : CBytes) :
    cacheGet (cacheSet st k v) k = some v := by
  simp [cacheGet, cacheSet]

theorem getCustomer_shape (env : CEnv) (st : CState) (id : String) :
    (getCustomer env st id).1 = .serverError ∨
      ∃ c, (getCustomer env st id).1 = .ok c := by
  unfold getCustomer
  cases hc : getFromCache env st id with
  | error e => exact Or.inl rfl
  | ok ov =>
    cases ov with
    | none =>
      cases hd : getFromDB env st id with
      | error e => exact Or.inl rfl
      | ok c => exact Or.inr ⟨c, rfl⟩
    | some c => exact Or.inr ⟨c, rfl⟩

end CustomerSvc

/-! ## Claim theorems -/

/-- Claim C4: a create request whose body is malformed JSON (modelled by a
body that fails to decode, `none`) returns 400 and leaves the primary store
and the cache completely unchanged, in all three services. -/
theorem claim_C4_malformed_create_rejected :
    (∀ (env : OrderSvc.OEnv) (t : OrderSvc.OrderTable),
      OrderSvc.createOrder env t none = (Resp.badRequest, t) ∧
      (OrderSvc.createOrder env t none).1.status = 400) ∧
    (∀ (env : ProductSvc.PEnv) (st : ProductSvc.PState),
      ProductSvc.createProduct env st none = (Resp.badRequest, st) ∧
      (ProductSvc.createProduct env st none).1.status = 400) ∧
    (∀ (env : CustomerSvc.CEnv) (st : CustomerSvc.CState),
      CustomerSvc.createCustomer env st none = (Resp.badRequest, st) ∧
      (CustomerSvc.createCustomer env st none).1.status = 400) :=
  ⟨fun _ _ => ⟨rfl, rfl⟩, fun _ _ => ⟨rfl, rfl⟩, fun _ _ => ⟨rfl, rfl⟩⟩

/-- Claim C3: for an id present in neither cache nor primary store, the
order service returns 404 while the product and customer services return a
generic 500 (for every environment, failing or not); and the product and
customer read handlers can never return 404 at all. -/
theorem claim_C3_not_found_asymmetry :
    (∀ (env : OrderSvc.OEnv) (t : OrderSvc.OrderTable) (id : String),
      env.dynErr = false → OrderSvc.getItem t id = none →
      OrderSvc.getOrder env t id = Resp.notFound ∧
      (OrderSvc.getOrder env t id).status = 404) ∧
    (∀ (env : ProductSvc.PEnv) (st : ProductSvc.PState) (id : String),
      ProductSvc.cacheGet st id = none → ProductSvc.dbSelect st.db id = none →
      (ProductSvc.getProduct env st id).1 = Resp.serverError ∧
      ((ProductSvc.getProduct env st id).1).status = 500) ∧
    (∀ (env : CustomerSvc.CEnv) (st : CustomerSvc.CState) (id : String),
      CustomerSvc.cacheGet st id = none → CustomerSvc.dbSelect st.db id = none →
      (CustomerSvc.getCustomer env st id).1 = Resp.serverError ∧
      ((CustomerSvc.getCustomer env st id).1).status = 500) ∧
    (∀ (env : ProductSvc.PEnv) (st : ProductSvc.PState) (id : String),
      ((ProductSvc.getProduct env st id).1).status ≠ 404) ∧
    (∀ (env : CustomerSvc.CEnv) (st : CustomerSvc.CState) (id : String),
      ((CustomerSvc.getCustomer env st id).1).status ≠ 404) := by
  refine ⟨?_, ?_, ?_, ?_, ?_⟩
  · intro env t id hdyn habs
    have h : OrderSvc.getOrder env t id = Resp.notFound := by
      simp [OrderSvc.getOrder, OrderSvc.getOrderFromDynamoDB, hdyn, habs]
    exact ⟨h, by rw [h]; rfl⟩
  · intro env st id hc hd
    have h : (ProductSvc.getProduct env st id).1 = Resp.serverError := by
      cases hge : env.cacheGetErr with
      | true => simp [ProductSvc.getProduct, ProductSvc.getFromCache, hge]
      | false =>
        cases hdb : env.dbErr with
        | true =>
          simp [ProductSvc.getProduct, ProductSvc.getFromCache, hge, hc,
            ProductSvc.getFromDB, hdb]
        | false =>
          simp [ProductSvc.getProduct, ProductSvc.getFromCache, hge, hc,
            ProductSvc.getFromDB, hdb, hd]
    exact ⟨h, by rw [h]; rfl⟩
  · intro env st id hc hd
    have h : (CustomerSvc.getCustomer env st id).1 = Resp.serverError := by
      cases hge : env.cacheGetErr with
      | true => simp [CustomerSvc.getCustomer, CustomerSvc.getFromCache, hge]
      | false =>
        cases hdb : env.dbErr with
        | true =>
          simp [CustomerSvc.getCustomer, CustomerSvc.getFromCache, hge, hc,
            CustomerSvc.getFromDB, hdb]
        | false =>
          simp [CustomerSvc.getCustomer, CustomerSvc.getFromCache, hge, hc,
            CustomerSvc.getFromDB, hdb, hd]
    exact ⟨h, by rw [h]; rfl⟩
  · intro env st id
    rcases ProductSvc.getProduct_shape env st id with h | ⟨p, h⟩ <;>
      rw [h] <;> simp [Resp.status]
  · intro env st id
    rcases CustomerSvc.getCustomer_shape env st id with h | ⟨c, h⟩ <;>
      rw [h] <;> simp [Resp.status]

/-- Claim C10: the order service's decoding of stored items is total and
silently lossy: any of the three attributes that is missing or not
string-typed becomes the empty string, and neither the single-item read nor
the full scan can fail because of a malformed item (with the client itself
healthy they always return `ok`). -/
theorem claim_C10_lossy_total_decode :
    (∀ item : OrderSvc.DynItem,
      (OrderSvc.getAttr item "id" = none ∨
          OrderSvc.getAttr item "id" = some .other →
        (OrderSvc.decodeOrderItem item).ID = "") ∧
      (OrderSvc.getAttr item "customerid" = none ∨
          OrderSvc.getAttr item "customerid" = some .other →
        (OrderSvc.decodeOrderItem item).CustomerID = "") ∧
      (OrderSvc.getAttr item "productid" = none ∨
          OrderSvc.getAttr item "productid" = some .other →
        (OrderSvc.decodeOrderItem item).ProductID = "")) ∧
    (∀ (env : OrderSvc.OEnv) (t : OrderSvc.OrderTable) (id : String),
      env.dynErr = false →
      OrderSvc.getOrderFromDynamoDB env t id =
        .ok ((OrderSvc.getItem t id).map OrderSvc.decodeOrderItem)) ∧
    (∀ (env : OrderSvc.OEnv) (t : OrderSvc.OrderTable),
      env.dynErr = false →
      OrderSvc.getAllOrdersFromDynamoDB env t =
        .ok (t.map OrderSvc.decodeOrderItem)) := by
  refine ⟨?_, ?_, ?_⟩
  · intro item
    refine ⟨?_, ?_, ?_⟩ <;>
      rintro (h | h) <;> simp [OrderSvc.decodeOrderItem, h]
  · intro env t id hdyn
    simp [OrderSvc.getOrderFromDynamoDB, hdyn]
  · intro env t hdyn
    simp [OrderSvc.getAllOrdersFromDynamoDB, hdyn]

/-- Claim C2: in the product/customer read handlers, a cache hit that
decodes returns 200 with the cached record and leaves the state untouched,
whatever the primary store would do (the environment's db-failure flag is
unconstrained); a definitive cache miss falls through to the primary store;
a cache transport error, or a cache value that fails to decode, returns 500
without consulting the primary store and with the state untouched. -/
theorem claim_C2_cache_aside_read :
    (∀ (env : ProductSvc.PEnv) (st : ProductSvc.PState) (id : String)
        (v : ProductSvc.PBytes) (p : ProductSvc.Product),
      env.cacheGetErr = false → ProductSvc.cacheGet st id = some v →
      ProductSvc.jsonUnmarshalProduct v = some p →
      ProductSvc.getProduct env st id = (Resp.ok p, st)) ∧
    (∀ (env : ProductSvc.PEnv) (st : ProductSvc.PState) (id : String),
      env.cacheGetErr = false → ProductSvc.cacheGet st id = none →
      ProductSvc.getProduct env st id =
        (match ProductSvc.getFromDB env st id with
          | .error _ => (Resp.serverError, st)
          | .ok p => (Resp.ok p, ProductSvc.saveToCache env st p))) ∧
    (∀ (env : ProductSvc.PEnv) (st : ProductSvc.PState) (id : String),
      env.cacheGetErr = true →
      ProductSvc.getProduct env st id = (Resp.serverError, st)) ∧
    (∀ (env : ProductSvc.PEnv) (st : ProductSvc.PState) (id : String)
        (v : ProductSvc.PBytes),
      env.cacheGetErr = false → ProductSvc.cacheGet st id = some v →
      ProductSvc.jsonUnmarshalProduct v = none →
      ProductSvc.getProduct env st id = (Resp.serverError, st)) ∧
    (∀ (env : CustomerSvc.CEnv) (st : CustomerSvc.CState) (id : String)
        (v : CustomerSvc.CBytes) (c : CustomerSvc.Customer),
      env.cacheGetErr = false → CustomerSvc.cacheGet st id = some v →
      CustomerSvc.jsonUnmarshalCustomer v = some c →
      CustomerSvc.getCustomer env st id = (Resp.ok c, st)) ∧
    (∀ (env : CustomerSvc.CEnv) (st : CustomerSvc.CState) (id : String),
      env.cacheGetErr = false → CustomerSvc.cacheGet st id = none →
      CustomerSvc.getCustomer env st id =
        (match CustomerSvc.getFromDB env st id with
          | .error _ => (Resp.serverError, st)
          | .ok c => (Resp.ok c, CustomerSvc.saveToCache env st c))) ∧
    (∀ (env : CustomerSvc.CEnv) (st : CustomerSvc.CState) (id : String),
      env.cacheGetErr = true →
      CustomerSvc.getCustomer env st id = (Resp.serverError, st)) ∧
    (∀ (env : CustomerSvc.CEnv) (st : CustomerSvc.CState) (id : String)
        (v : CustomerSvc.CBytes),
      env.cacheGetErr = false → CustomerSvc.cacheGet st id = some v →
      CustomerSvc.jsonUnmarshalCustomer v = none →
      CustomerSvc.getCustomer env st id = (Resp.serverError, st)) := by
  refine ⟨?_, ?_, ?_, ?_, ?_, ?_, ?_, ?_⟩
  · intro env st id v p hge hcg hum
    simp [ProductSvc.getProduct, ProductSvc.getFromCache, hge, hcg, hum]
  · intro env st id hge hcg
    simp [ProductSvc.getProduct, ProductSvc.getFromCache, hge, hcg]
  · intro env st id hge
    simp [ProductSvc.getProduct, ProductSvc.getFromCache, hge]
  · intro env st id v hge hcg hum
    simp [ProductSvc.getProduct, ProductSvc.getFromCache, hge, hcg, hum]
  · intro env st id v c hge hcg hum
    simp [CustomerSvc.getCustomer, CustomerSvc.getFromCache, hge, hcg, hum]
  · intro env st id hge hcg
    simp [CustomerSvc.getCustomer, CustomerSvc.getFromCache, hge, hcg]
  · intro env st id hge
    simp [CustomerSvc.getCustomer, CustomerSvc.getFromCache, hge]
  · intro env st id v hge hcg hum
    simp [CustomerSvc.getCustomer, CustomerSvc.getFromCache, hge, hcg, hum]

namespace ProductSvc

theorem createProduct_ok (env : PEnv) (st : PState) (p : Product) (st2 : PState)
    (h : createProduct env st (some p) = (Resp.created, st2)) :
    env.dbErr = false ∧ dbSelect st.db p.ID = none ∧
      st2 = saveToCache env ⟨p :: st.db, st.cache⟩ p := by
  cases hdb : env.dbErr with
  | true => simp [createProduct, saveToDB, hdb] at h
  | false =>
    cases hd : dbSelect st.db p.ID with
    | some q => simp [createProduct, saveToDB, hdb, hd] at h
    | none =>
      simp [createProduct, saveToDB, hdb, hd] at h
      exact ⟨rfl, rfl, h.symm⟩

theorem getProduct_hit (env : PEnv) (st : PState) (id : String) (v : PBytes)
    (p : Product) (hge : env.cacheGetErr = false) (hcg : cacheGet st id = some v)
    (hum : jsonUnmarshalProduct v = some p) :
    getProduct env st id = (Resp.ok p, st) := by
  simp [getProduct, getFromCache, hge, hcg, hum]

theorem getProduct_db (env : PEnv) (st : PState) (id : String) (p : Product)
    (hge : env.cacheGetErr = false) (hcg : cacheGet st id = none)
    (hdb : env.dbErr = false) (hsel : dbSelect st.db id = some p) :
    getProduct env st id = (Resp.ok p, saveToCache env st p) := by
  simp [getProduct, getFromCache, hge, hcg, getFromDB, hdb, hsel]

theorem pInv_cacheGet_none (st : PState) (k : String) (hinv : pInv st)
    (hsel : dbSelect st.db k = none) : cacheGet st k = none := by
  cases hc : cacheGet st k with
  | none => rfl
  | some v =>
    exfalso
    unfold cacheGet at hc
    cases hf : st.cache.find? (fun kv => kv.1 == k) with
    | none => rw [hf] at hc; simp at hc
    | some kv =>
      have hmem : kv ∈ st.cache := List.mem_of_find?_eq_some hf
      have hkey := List.find?_some hf
      simp only [beq_iff_eq] at hkey
      obtain ⟨q, hq, _⟩ := hinv kv hmem
      rw [hkey] at hq
      rw [hq] at hsel
      exact Option.noConfusion hsel

end ProductSvc

namespace CustomerSvc

theorem createCustomer_ok (env : CEnv) (st : CState) (c : Customer)
    (st2 : CState)
    (h : createCustomer env st (some c) = (Resp.created, st2)) :
    env.dbErr = false ∧ dbSelect st.db c.ID = none ∧
      st2 = saveToCache env ⟨c :: st.db, st.cache⟩ c := by
  cases hdb : env.dbErr with
  | true => simp [createCustomer, saveToDB, hdb] at h
  | false =>
    cases hd : dbSelect st.db c.ID with
    | some q => simp [createCustomer, saveToDB, hdb, hd] at h
    | none =>
      simp [createCustomer, saveToDB, hdb, hd] at h
      exact ⟨rfl, rfl, h.symm⟩

theorem getCustomer_hit (env : CEnv) (st : CState) (id : String) (v : CBytes)
    (c : Customer) (hge : env.cacheGetErr = false) (hcg : cacheGet st id = some v)
    (hum : jsonUnmarshalCustomer v = some c) :
    getCustomer env st id = (Resp.ok c, st) := by
  simp [getCustomer, getFromCache, hge, hcg, hum]

theorem getCustomer_db (env : CEnv) (st : CState) (id : String) (c : Customer)
    (hge : env.cacheGetErr = false) (hcg : cacheGet st id = none)
    (hdb : env.dbErr = false) (hsel : dbSelect st.db id = some c) :
    getCustomer env st id = (Resp.ok c, saveToCache env st c) := by
  simp [getCustomer, getFromCache, hge, hcg, getFromDB, hdb, hsel]

theorem cInv_cacheGet_none (st : CState) (k : String) (hinv : cInv st)
    (hsel : dbSelect st.db k = none) : cacheGet st k = none := by
  cases hc : cacheGet st k with
  | none => rfl
  | some v =>
    exfalso
    unfold cacheGet at hc
    cases hf : st.cache.find? (fun kv => kv.1 == k) with
    | none => rw [hf] at hc; simp at hc
    | some kv =>
      have hmem : kv ∈ st.cache := List.mem_of_find?_eq_some hf
      have hkey := List.find?_some hf
      simp only [beq_iff_eq] at hkey
      obtain ⟨q, hq, _⟩ := hinv kv hmem
      rw [hkey] at hq
      rw [hq] at hsel
      exact Option.noConfusion hsel

end CustomerSvc

/-- Claim C1: a create whose primary-store write succeeds, followed by a
read of the same id with no intervening write, returns 200 with a record
equal field-for-field to the one created, in all three services.  For the
product/customer services the starting state is assumed cache-coherent
(the reachable-state invariant) and the read's cache and store clients are
healthy; the read is served either from the cache filled at create time or
from the relational row. -/
theorem claim_C1_create_then_read_roundtrip :
    (∀ (e1 e2 : OrderSvc.OEnv) (t t2 : OrderSvc.OrderTable) (o : OrderSvc.Order),
      e2.dynErr = false →
      OrderSvc.createOrder e1 t (some o) = (Resp.created, t2) →
      OrderSvc.getOrder e2 t2 o.ID = Resp.ok o) ∧
    (∀ (e1 e2 : ProductSvc.PEnv) (st st2 : ProductSvc.PState)
        (p : ProductSvc.Product),
      e2.cacheGetErr = false → e2.dbErr = false → ProductSvc.pInv st →
      ProductSvc.createProduct e1 st (some p) = (Resp.created, st2) →
      (ProductSvc.getProduct e2 st2 p.ID).1 = Resp.ok p) ∧
    (∀ (e1 e2 : CustomerSvc.CEnv) (st st2 : CustomerSvc.CState)
        (c : CustomerSvc.Customer),
      e2.cacheGetErr = false → e2.dbErr = false → CustomerSvc.cInv st →
      CustomerSvc.createCustomer e1 st (some c) = (Resp.created, st2) →
      (CustomerSvc.getCustomer e2 st2 c.ID).1 = Resp.ok c) := by
  refine ⟨?_, ?_, ?_⟩
  · intro e1 e2 t t2 o he2 hcr
    cases he1 : e1.dynErr with
    | true => simp [OrderSvc.createOrder, OrderSvc.saveOrderToDynamoDB, he1] at hcr
    | false =>
      simp [OrderSvc.createOrder, OrderSvc.saveOrderToDynamoDB, he1] at hcr
      rw [← hcr]
      simp [OrderSvc.getOrder, OrderSvc.getOrderFromDynamoDB, he2,
        OrderSvc.getItem_putItem_self, OrderSvc.decodeOrderItem_orderToItem]
  · intro e1 e2 st st2 p hge hdb hinv hcr
    obtain ⟨-, hnone, hst2⟩ := ProductSvc.createProduct_ok e1 st p st2 hcr
    cases hset : e1.cacheSetErr with
    | false =>
      have hcache : ProductSvc.cacheGet st2 p.ID =
          some (ProductSvc.jsonMarshalProduct p) := by
        rw [hst2]
        simp [ProductSvc.saveToCache, hset, ProductSvc.cacheGet_cacheSet_self]
      rw [ProductSvc.getProduct_hit e2 st2 p.ID _ p hge hcache rfl]
    | true =>
      have hst2' : st2 = ⟨p :: st.db, st.cache⟩ := by
        rw [hst2]; simp [ProductSvc.saveToCache, hset]
      have hmiss : ProductSvc.cacheGet st2 p.ID = none := by
        rw [hst2']
        have h0 : ProductSvc.cacheGet ⟨p :: st.db, st.cache⟩ p.ID =
            ProductSvc.cacheGet st p.ID := rfl
        rw [h0]
        exact ProductSvc.pInv_cacheGet_none st p.ID hinv hnone
      have hsel : ProductSvc.dbSelect st2.db p.ID = some p := by
        rw [hst2']
        exact ProductSvc.dbSelect_cons_self st.db p
      rw [ProductSvc.getProduct_db e2 st2 p.ID p hge hmiss hdb hsel]
  · intro e1 e2 st st2 c hge hdb hinv hcr
    obtain ⟨-, hnone, hst2⟩ := CustomerSvc.createCustomer_ok e1 st c st2 hcr
    cases hset : e1.cacheSetErr with
    | false =>
      have hcache : CustomerSvc.cacheGet st2 c.ID =
          some (CustomerSvc.jsonMarshalCustomer c) := by
        rw [hst2]
        simp [CustomerSvc.saveToCache, hset, CustomerSvc.cacheGet_cacheSet_self_c]
      rw [CustomerSvc.getCustomer_hit e2 st2 c.ID _ c hge hcache rfl]
    | true =>
      have hst2' : st2 = ⟨c :: st.db, st.cache⟩ := by
        rw [hst2]; simp [CustomerSvc.saveToCache, hset]
      have hmiss : CustomerSvc.cacheGet st2 c.ID = none := by
        rw [hst2']
        have h0 : CustomerSvc.cacheGet ⟨c :: st.db, st.cache⟩ c.ID =
            CustomerSvc.cacheGet st c.ID := rfl
        rw [h0]
        exact CustomerSvc.cInv_cacheGet_none st c.ID hinv hnone
      have hsel : CustomerSvc.dbSelect st2.db c.ID = some c := by
        rw [hst2']
        exact CustomerSvc.dbSelect_cons_self_c st.db c
      rw [CustomerSvc.getCustomer_db e2 st2 c.ID c hge hmiss hdb hsel]

/-- Claim C7: in the product/customer services, when the primary-store
operation succeeded (a read that found the row, or a create whose insert
succeeded) a failing cache write (cache-set error flag on) does not change
the response: the read still returns 200 with the record and the create
still returns 201; the cache-write error is never surfaced. -/
theorem claim_C7_cache_write_failure_swallowed :
    (∀ (env : ProductSvc.PEnv) (st : ProductSvc.PState) (id : String)
        (p : ProductSvc.Product),
      env.cacheSetErr = true → env.cacheGetErr = false →
      ProductSvc.cacheGet st id = none →
      ProductSvc.getFromDB env st id = .ok p →
      (ProductSvc.getProduct env st id).1 = Resp.ok p ∧
      ((ProductSvc.getProduct env st id).1).status = 200) ∧
    (∀ (env : ProductSvc.PEnv) (st : ProductSvc.PState)
        (p : ProductSvc.Product) (st2 : ProductSvc.PState),
      env.cacheSetErr = true → ProductSvc.saveToDB env st p = .ok st2 →
      (ProductSvc.createProduct env st (some p)).1 = Resp.created ∧
      ((ProductSvc.createProduct env st (some p)).1).status = 201) ∧
    (∀ (env : CustomerSvc.CEnv) (st : CustomerSvc.CState) (id : String)
        (c : CustomerSvc.Customer),
      env.cacheSetErr = true → env.cacheGetErr = false →
      CustomerSvc.cacheGet st id = none →
      CustomerSvc.getFromDB env st id = .ok c →
      (CustomerSvc.getCustomer env st id).1 = Resp.ok c ∧
      ((CustomerSvc.getCustomer env st id).1).status = 200) ∧
    (∀ (env : CustomerSvc.CEnv) (st : CustomerSvc.CState)
        (c : CustomerSvc.Customer) (st2 : CustomerSvc.CState),
      env.cacheSetErr = true → CustomerSvc.saveToDB env st c = .ok st2 →
      (CustomerSvc.createCustomer env st (some c)).1 = Resp.created ∧
      ((CustomerSvc.createCustomer env st (some c)).1).status = 201) := by
  refine ⟨?_, ?_, ?_, ?_⟩
  · intro env st id p _ hge hcg hok
    have h : (ProductSvc.getProduct env st id).1 = Resp.ok p := by
      simp [ProductSvc.getProduct, ProductSvc.getFromCache, hge, hcg, hok]
    exact ⟨h, by rw [h]; rfl⟩
  · intro env st p st2 _ hok
    have h : (ProductSvc.createProduct env st (some p)).1 = Resp.created := by
      simp [ProductSvc.createProduct, hok]
    exact ⟨h, by rw [h]; rfl⟩
  · intro env st id c _ hge hcg hok
    have h : (CustomerSvc.getCustomer env st id).1 = Resp.ok c := by
      simp [CustomerSvc.getCustomer, CustomerSvc.getFromCache, hge, hcg, hok]
    exact ⟨h, by rw [h]; rfl⟩
  · intro env st c st2 _ hok
    have h : (CustomerSvc.createCustomer env st (some c)).1 = Resp.created := by
      simp [CustomerSvc.createCustomer, hok]
    exact ⟨h, by rw [h]; rfl⟩

/-- Claim C8: in the product/customer services, a create whose insert
succeeds (and whose best-effort cache set does not fail) leaves the created
record in the cache under its id with no expiry, so an immediately
following read of that id is served from the cache — it returns 200 with
the record even when the primary store is failing. -/
theorem claim_C8_create_populates_cache :
    (∀ (env : ProductSvc.PEnv) (st : ProductSvc.PState)
        (p : ProductSvc.Product) (st2 : ProductSvc.PState),
      env.cacheSetErr = false →
      ProductSvc.createProduct env st (some p) = (Resp.created, st2) →
      ProductSvc.cacheGet st2 p.ID = some (ProductSvc.jsonMarshalProduct p) ∧
      ∀ e2 : ProductSvc.PEnv, e2.cacheGetErr = false →
        (ProductSvc.getProduct e2 st2 p.ID).1 = Resp.ok p) ∧
    (∀ (env : CustomerSvc.CEnv) (st : CustomerSvc.CState)
        (c : CustomerSvc.Customer) (st2 : CustomerSvc.CState),
      env.cacheSetErr = false →
      CustomerSvc.createCustomer env st (some c) = (Resp.created, st2) →
      CustomerSvc.cacheGet st2 c.ID = some (CustomerSvc.jsonMarshalCustomer c) ∧
      ∀ e2 : CustomerSvc.CEnv, e2.cacheGetErr = false →
        (CustomerSvc.getCustomer e2 st2 c.ID).1 = Resp.ok c) := by
  refine ⟨?_, ?_⟩
  · intro env st p st2 hset hcr
    obtain ⟨-, -, hst2⟩ := ProductSvc.createProduct_ok env st p st2 hcr
    have hcache : ProductSvc.cacheGet st2 p.ID =
        some (ProductSvc.jsonMarshalProduct p) := by
      rw [hst2]
      simp [ProductSvc.saveToCache, hset, ProductSvc.cacheGet_cacheSet_self]
    refine ⟨hcache, fun e2 hge => ?_⟩
    rw [ProductSvc.getProduct_hit e2 st2 p.ID _ p hge hcache rfl]
  · intro env st c st2 hset hcr
    obtain ⟨-, -, hst2⟩ := CustomerSvc.createCustomer_ok env st c st2 hcr
    have hcache : CustomerSvc.cacheGet st2 c.ID =
        some (CustomerSvc.jsonMarshalCustomer c) := by
      rw [hst2]
      simp [CustomerSvc.saveToCache, hset, CustomerSvc.cacheGet_cacheSet_self_c]
    refine ⟨hcache, fun e2 hge => ?_⟩
    rw [CustomerSvc.getCustomer_hit e2 st2 c.ID _ c hge hcache rfl]

namespace ProductSvc

theorem getFromDB_ok (env : PEnv) (st : PState) (id : String) (p : Product)
    (h : getFromDB env st id = .ok p) : dbSelect st.db id = some p := by
  cases hdb : env.dbErr with
  | true => simp [getFromDB, hdb] at h
  | false =>
    cases hd : dbSelect st.db id with
    | none => simp [getFromDB, hdb, hd] at h
    | some q =>
      simp [getFromDB, hdb, hd] at h
      rw [h]

theorem dbSelect_id (db : List Product) (id : String) (p : Product)
    (h : dbSelect db id = some p) : p.ID = id := by
  have hp := List.find?_some h
  simpa using hp

theorem saveToDB_ok (env : PEnv) (st : PState) (p : Product) (st2 : PState)
    (h : saveToDB env st p = .ok st2) :
    dbSelect st.db p.ID = none ∧ st2 = ⟨p :: st.db, st.cache⟩ := by
  cases hdb : env.dbErr with
  | true => simp [saveToDB, hdb] at h
  | false =>
    cases hd : dbSelect st.db p.ID with
    | some q => simp [saveToDB, hdb, hd] at h
    | none =>
      simp [saveToDB, hdb, hd] at h
      exact ⟨rfl, h.symm⟩

theorem pInv_saveToCache (env : PEnv) (st : PState) (p : Product)
    (hsel : dbSelect st.db p.ID = some p) (hinv : pInv st) :
    pInv (saveToCache env st p) := by
  cases hset : env.cacheSetErr with
  | true => simpa [saveToCache, hset] using hinv
  | false =>
    have hstate : saveToCache env st p = cacheSet st p.ID (jsonMarshalProduct p) := by
      simp [saveToCache, hset]
    rw [hstate]
    intro kv hkv
    simp only [cacheSet] at hkv
    rcases List.mem_cons.mp hkv with heq | hmem
    · subst heq
      exact ⟨p, hsel, rfl⟩
    · exact hinv kv (List.mem_of_mem_filter hmem)

theorem pInv_insert (st : PState) (p : Product)
    (hnone : dbSelect st.db p.ID = none) (hinv : pInv st) :
    pInv (⟨p :: st.db, st.cache⟩ : PState) := by
  intro kv hkv
  obtain ⟨q, hq, hu⟩ := hinv kv hkv
  refine ⟨q, ?_, hu⟩
  show dbSelect (p :: st.db) kv.1 = some q
  cases hpk : (p.ID == kv.1) with
  | true =>
    exfalso
    have : p.ID = kv.1 := by simpa using hpk
    rw [← this] at hq
    rw [hq] at hnone
    exact Option.noConfusion hnone
  | false =>
    unfold dbSelect at hq ⊢
    rw [List.find?_cons]
    simp only [hpk]
    exact hq

theorem pInv_step (st : PState) (r : PEnv × PReq) (hinv : pInv st) :
    pInv (pStep st r) := by
  obtain ⟨env, req⟩ := r
  cases req with
  | getq id =>
    show pInv (getProduct env st id).2
    unfold getProduct
    cases hc : getFromCache env st id with
    | error e => exact hinv
    | ok ov =>
      cases ov with
      | some p => exact hinv
      | none =>
        cases hd : getFromDB env st id with
        | error e => exact hinv
        | ok p =>
          have hsel := getFromDB_ok env st id p hd
          have hid := dbSelect_id st.db id p hsel
          rw [← hid] at hsel
          exact pInv_saveToCache env st p hsel hinv
  | createq body =>
    cases body with
    | none => exact hinv
    | some p =>
      show pInv (match saveToDB env st p with
        | .error _ => (Resp.serverError, st)
        | .ok st2 => (Resp.created, saveToCache env st2 p) :
          Resp Product × PState).2
      cases hs : saveToDB env st p with
      | error e => exact hinv
      | ok st2 =>
        obtain ⟨hnone, hst2⟩ := saveToDB_ok env st p st2 hs
        have hinv2 : pInv st2 := by
          rw [hst2]
          exact pInv_insert st p hnone hinv
        have hsel2 : dbSelect st2.db p.ID = some p := by
          rw [hst2]
          exact dbSelect_cons_self st.db p
        exact pInv_saveToCache env st2 p hsel2 hinv2

theorem pInv_empty : pInv (⟨[], []⟩ : PState) :=
  fun kv hkv => absurd hkv (List.not_mem_nil kv)

theorem pInv_run (l : List (PEnv × PReq)) : pInv (pRun l) := by
  have h : ∀ st : PState, pInv st → pInv (l.foldl pStep st) := by
    induction l with
    | nil => intro st hst; exact hst
    | cons r rest ih => intro st hst; exact ih (pStep st r) (pInv_step st r hst)
  exact h _ pInv_empty

end ProductSvc

namespace CustomerSvc

theorem getFromDB_ok_c (env : CEnv) (st : CState) (id : String) (c : Customer)
    (h : getFromDB env st id = .ok c) : dbSelect st.db id = some c := by
  cases hdb : env.dbErr with
  | true => simp [getFromDB, hdb] at h
  | false =>
    cases hd : dbSelect st.db id with
    | none => simp [getFromDB, hdb, hd] at h
    | some q =>
      simp [getFromDB, hdb, hd] at h
      rw [h]

theorem dbSelect_id_c (db : List Customer) (id : String) (c : Customer)
    (h : dbSelect db id = some c) : c.ID = id := by
  have hc := List.find?_some h
  simpa using hc

theorem saveToDB_ok_c (env : CEnv) (st : CState) (c : Customer) (st2 : CState)
    (h : saveToDB env st c = .ok st2) :
    dbSelect st.db c.ID = none ∧ st2 = ⟨c :: st.db, st.cache⟩ := by
  cases hdb : env.dbErr with
  | true => simp [saveToDB, hdb] at h
  | false =>
    cases hd : dbSelect st.db c.ID with
    | some q => simp [saveToDB, hdb, hd] at h
    | none =>
      simp [saveToDB, hdb, hd] at h
      exact ⟨rfl, h.symm⟩

theorem cInv_saveToCache (env : CEnv) (st : CState) (c : Customer)
    (hsel : dbSelect st.db c.ID = some c) (hinv : cInv st) :
    cInv (saveToCache env st c) := by
  cases hset : env.cacheSetErr with
  | true => simpa [saveToCache, hset] using hinv
  | false =>
    have hstate : saveToCache env st c = cacheSet st c.ID (jsonMarshalCustomer c) := by
      simp [saveToCache, hset]
    rw [hstate]
    intro kv hkv
    simp only [cacheSet] at hkv
    rcases List.mem_cons.mp hkv with heq | hmem
    · subst heq
      exact ⟨c, hsel, rfl⟩
    · exact hinv kv (List.mem_of_mem_filter hmem)

theorem cInv_insert (st : CState) (c : Customer)
    (hnone : dbSelect st.db c.ID = none) (hinv : cInv st) :
    cInv (⟨c :: st.db, st.cache⟩ : CState) := by
  intro kv hkv
  obtain ⟨q, hq, hu⟩ := hinv kv hkv
  refine ⟨q, ?_, hu⟩
  show dbSelect (c :: st.db) kv.1 = some q
  cases hck : (c.ID == kv.1) with
  | true =>
    exfalso
    have : c.ID = kv.1 := by simpa using hck
    rw [← this] at hq
    rw [hq] at hnone
    exact Option.noConfusion hnone
  | false =>
    unfold dbSelect at hq ⊢
    rw [List.find?_cons]
    simp only [hck]
    exact hq

theorem cInv_step (st : CState) (r : CEnv × CReq) (hinv : cInv st) :
    cInv (cStep st r) := by
  obtain ⟨env, req⟩ := r
  cases req with
  | getq id =>
    show cInv (getCustomer env st id).2
    unfold getCustomer
    cases hc : getFromCache env st id with
    | error e => exact hinv
    | ok ov =>
      cases ov with
      | some c => exact hinv
      | none =>
        cases hd : getFromDB env st id with
        | error e => exact hinv
        | ok c =>
          have hsel := getFromDB_ok_c env st id c hd
          have hid := dbSelect_id_c st.db id c hsel
          rw [← hid] at hsel
          exact cInv_saveToCache env st c hsel hinv
  | createq body =>
    cases body with
    | none => exact hinv
    | some c =>
      show cInv (match saveToDB env st c with
        | .error _ => (Resp.serverError, st)
        | .ok st2 => (Resp.created, saveToCache env st2 c) :
          Resp Customer × CState).2
      cases hs : saveToDB env st c with
      | error e => exact hinv
      | ok st2 =>
        obtain ⟨hnone, hst2⟩ := saveToDB_ok_c env st c st2 hs
        have hinv2 : cInv st2 := by
          rw [hst2]
          exact cInv_insert st c hnone hinv
        have hsel2 : dbSelect st2.db c.ID = some c := by
          rw [hst2]
          exact dbSelect_cons_self_c st.db c
        exact cInv_saveToCache env st2 c hsel2 hinv2

theorem cInv_empty : cInv (⟨[], []⟩ : CState) :=
  fun kv hkv => absurd hkv (List.not_mem_nil kv)

theorem cInv_run (l : List (CEnv × CReq)) : cInv (cRun l) := by
  have h : ∀ st : CState, cInv st → cInv (l.foldl cStep st) := by
    induction l with
    | nil => intro st hst; exact hst
    | cons r rest ih => intro st hst; exact ih (cStep st r) (cInv_step st r hst)
  exact h _ cInv_empty

end CustomerSvc

/-- Claim C9: cache coherence invariant. In every state reachable from the
empty system by any sequence of create and read requests (each request under
its own transient-failure environment), every cache entry under key k
decodes to exactly the record stored in the primary store under id k, for
both the product and the customer service. -/
theorem claim_C9_cache_coherence :
    (∀ l : List (ProductSvc.PEnv × ProductSvc.PReq),
      ProductSvc.pInv (ProductSvc.pRun l)) ∧
    (∀ l : List (CustomerSvc.CEnv × CustomerSvc.CReq),
      CustomerSvc.cInv (CustomerSvc.cRun l)) :=
  ⟨ProductSvc.pInv_run, CustomerSvc.cInv_run⟩

/-- Claim C5 counterexample: in the order service, creating an order whose
id already exists in the table does not produce a constraint-violation 500;
the DynamoDB put is an upsert, so the request returns 201 and the existing
record is silently replaced. Concretely: with item (o1, c1, p1) stored,
creating (o1, c2, p2) returns 201, and a subsequent read of o1 returns the
new record, not the old one. -/
theorem claim_C5_duplicate_insert_cex :
    OrderSvc.createOrder ⟨false, false⟩
        [OrderSvc.orderToItem ⟨"o1", "c1", "p1"⟩]
        (some ⟨"o1", "c2", "p2"⟩) =
      (Resp.created, [OrderSvc.orderToItem ⟨"o1", "c2", "p2"⟩]) ∧
    (Resp.created : Resp OrderSvc.Order).status = 201 ∧
    OrderSvc.getOrder ⟨false, false⟩
        [OrderSvc.orderToItem ⟨"o1", "c2", "p2"⟩] "o1" =
      Resp.ok ⟨"o1", "c2", "p2"⟩ ∧
    (⟨"o1", "c2", "p2"⟩ : OrderSvc.Order) ≠ ⟨"o1", "c1", "p1"⟩ := by
  refine ⟨by decide, rfl, by decide, by decide⟩

/-- Claim C5 amended: in the product and customer services a create whose
id already exists surfaces the store's constraint violation as 500 with the
whole state (existing record included) unchanged; in the order service the
key-value put has upsert semantics instead — a duplicate id succeeds with
201 and replaces the stored item. -/
theorem claim_C5_duplicate_insert_amended :
    (∀ (env : ProductSvc.PEnv) (st : ProductSvc.PState)
        (p : ProductSvc.Product),
      (ProductSvc.dbSelect st.db p.ID).isSome = true →
      ProductSvc.createProduct env st (some p) = (Resp.serverError, st) ∧
      ((ProductSvc.createProduct env st (some p)).1).status = 500) ∧
    (∀ (env : CustomerSvc.CEnv) (st : CustomerSvc.CState)
        (c : CustomerSvc.Customer),
      (CustomerSvc.dbSelect st.db c.ID).isSome = true →
      CustomerSvc.createCustomer env st (some c) = (Resp.serverError, st) ∧
      ((CustomerSvc.createCustomer env st (some c)).1).status = 500) ∧
    (∀ (env : OrderSvc.OEnv) (t : OrderSvc.OrderTable) (o : OrderSvc.Order),
      env.dynErr = false →
      OrderSvc.createOrder env t (some o) =
        (Resp.created, OrderSvc.putItem t (OrderSvc.orderToItem o)) ∧
      OrderSvc.getItem (OrderSvc.putItem t (OrderSvc.orderToItem o)) o.ID =
        some (OrderSvc.orderToItem o)) := by
  refine ⟨?_, ?_, ?_⟩
  · intro env st p hdup
    have h : ProductSvc.createProduct env st (some p) = (Resp.serverError, st) := by
      cases hdb : env.dbErr with
      | true => simp [ProductSvc.createProduct, ProductSvc.saveToDB, hdb]
      | false => simp [ProductSvc.createProduct, ProductSvc.saveToDB, hdb, hdup]
    exact ⟨h, by rw [h]; rfl⟩
  · intro env st c hdup
    have h : CustomerSvc.createCustomer env st (some c) = (Resp.serverError, st) := by
      cases hdb : env.dbErr with
      | true => simp [CustomerSvc.createCustomer, CustomerSvc.saveToDB, hdb]
      | false => simp [CustomerSvc.createCustomer, CustomerSvc.saveToDB, hdb, hdup]
    exact ⟨h, by rw [h]; rfl⟩
  · intro env t o hdyn
    refine ⟨?_, OrderSvc.getItem_putItem_self t o⟩
    simp [OrderSvc.createOrder, OrderSvc.saveOrderToDynamoDB, hdyn]

namespace OrderSvc

theorem saveOrdersToS3_ok (env : OEnv) (t : OrderTable) (s3 : S3State)
    (h1 : env.dynErr = false) (h2 : env.s3Err = false) :
    saveOrdersToS3 env t s3 =
      (Resp.okMsg,
        ("orders_data.json", jsonMarshalOrders (t.map decodeOrderItem)) ::
          s3.filter (fun kv => kv.1 != "orders_data.json")) := by
  simp [saveOrdersToS3, getAllOrdersFromDynamoDB, h1, saveDataToS3, h2]

end OrderSvc

/-- Claim C6 counterexample: with the order table empty, a successful
bulk-export invocation stores the JSON document null under the fixed key,
because Go marshals the nil slice built by the scan loop to null; null is
not a JSON array, in particular not the empty array the claim requires for
an empty table. -/
theorem claim_C6_bulk_export_cex :
    OrderSvc.saveOrdersToS3 ⟨false, false⟩ [] [] =
      (Resp.okMsg, [("orders_data.json", Json.null)]) ∧
    Json.null ≠ Json.arr [] := by
  refine ⟨rfl, fun h => Json.noConfusion h⟩

/-- Claim C6 amended: a successful bulk export writes, under the fixed key
orders_data.json, the JSON marshalling of all records currently in the
table; for a nonempty table that document is a JSON array whose length
equals the number of records, but for an empty table it is the document
null (Go marshals the nil slice to null, not to an empty array); and
re-invoking the export against identical table contents overwrites the
prior export with identical (hence byte-identical) content. -/
theorem claim_C6_bulk_export_amended :
    (∀ (env : OrderSvc.OEnv) (t : OrderSvc.OrderTable) (s3 : OrderSvc.S3State),
      env.dynErr = false → env.s3Err = false →
      (OrderSvc.saveOrdersToS3 env t s3).1 = Resp.okMsg ∧
      OrderSvc.s3Get (OrderSvc.saveOrdersToS3 env t s3).2 "orders_data.json" =
        some (OrderSvc.jsonMarshalOrders (t.map OrderSvc.decodeOrderItem))) ∧
    (∀ t : OrderSvc.OrderTable, t ≠ [] →
      ∃ xs : List Json,
        OrderSvc.jsonMarshalOrders (t.map OrderSvc.decodeOrderItem) =
          Json.arr xs ∧
        xs.length = t.length) ∧
    (OrderSvc.jsonMarshalOrders ([] : List OrderSvc.Order) = Json.null) ∧
    (∀ (env : OrderSvc.OEnv) (t : OrderSvc.OrderTable) (s3 : OrderSvc.S3State),
      env.dynErr = false → env.s3Err = false →
      OrderSvc.saveOrdersToS3 env t (OrderSvc.saveOrdersToS3 env t s3).2 =
        (Resp.okMsg, (OrderSvc.saveOrdersToS3 env t s3).2)) := by
  refine ⟨?_, ?_, rfl, ?_⟩
  · intro env t s3 h1 h2
    rw [OrderSvc.saveOrdersToS3_ok env t s3 h1 h2]
    exact ⟨rfl, by simp [OrderSvc.s3Get]⟩
  · intro t ht
    refine ⟨(t.map OrderSvc.decodeOrderItem).map OrderSvc.orderJson, ?_, by simp⟩
    have hne : (t.map OrderSvc.decodeOrderItem).isEmpty = false := by
      cases t with
      | nil => exact absurd rfl ht
      | cons a l => rfl
    simp [OrderSvc.jsonMarshalOrders, hne]
  · intro env t s3 h1 h2
    rw [OrderSvc.saveOrdersToS3_ok env t s3 h1 h2,
      OrderSvc.saveOrdersToS3_ok env t _ h1 h2]
    simp [List.filter_filter]

/-! ## Concrete executions
Sanity checks evaluating the embedded handlers on small concrete inputs,
exercising each hypothesis combination used above on a satisfiable case. -/

theorem sanity_order_lifecycle :
    OrderSvc.createOrder ⟨false, false⟩ [] (some ⟨"o1", "c1", "p1"⟩) =
      (Resp.created, [OrderSvc.orderToItem ⟨"o1", "c1", "p1"⟩]) ∧
    OrderSvc.getOrder ⟨false, false⟩
        [OrderSvc.orderToItem ⟨"o1", "c1", "p1"⟩] "o1" =
      Resp.ok ⟨"o1", "c1", "p1"⟩ ∧
    OrderSvc.getOrder ⟨false, false⟩ [] "o1" = Resp.notFound ∧
    OrderSvc.getOrder ⟨true, false⟩ [] "o1" = Resp.serverError := by
  refine ⟨by decide, by decide, by decide, by decide⟩

theorem sanity_product_lifecycle :
    ProductSvc.createProduct ⟨false, false, false⟩ ⟨[], []⟩
        (some ⟨"p1", "n1", "cat1"⟩) =
      (Resp.created,
        ⟨[⟨"p1", "n1", "cat1"⟩], [("p1", .enc ⟨"p1", "n1", "cat1"⟩)]⟩) ∧
    ProductSvc.getProduct ⟨false, false, true⟩
        ⟨[⟨"p1", "n1", "cat1"⟩], [("p1", .enc ⟨"p1", "n1", "cat1"⟩)]⟩ "p1" =
      (Resp.ok ⟨"p1", "n1", "cat1"⟩,
        ⟨[⟨"p1", "n1", "cat1"⟩], [("p1", .enc ⟨"p1", "n1", "cat1"⟩)]⟩) ∧
    ProductSvc.getProduct ⟨false, false, false⟩
        ⟨[⟨"p1", "n1", "cat1"⟩], []⟩ "p1" =
      (Resp.ok ⟨"p1", "n1", "cat1"⟩,
        ⟨[⟨"p1", "n1", "cat1"⟩], [("p1", .enc ⟨"p1", "n1", "cat1"⟩)]⟩) ∧
    ProductSvc.getProduct ⟨false, false, false⟩ ⟨[], []⟩ "p1" =
      (Resp.serverError, ⟨[], []⟩) ∧
    ProductSvc.getProduct ⟨true, false, false⟩
        ⟨[⟨"p1", "n1", "cat1"⟩], []⟩ "p1" =
      (Resp.serverError, ⟨[⟨"p1", "n1", "cat1"⟩], []⟩) ∧
    ProductSvc.getProduct ⟨false, false, true⟩
        ⟨[], [("p1", .raw "garbage")]⟩ "p1" =
      (Resp.serverError, ⟨[], [("p1", .raw "garbage")]⟩) ∧
    ProductSvc.createProduct ⟨false, false, false⟩
        ⟨[⟨"p1", "n1", "cat1"⟩], []⟩ (some ⟨"p1", "n2", "cat2"⟩) =
      (Resp.serverError, ⟨[⟨"p1", "n1", "cat1"⟩], []⟩) ∧
    ProductSvc.createProduct ⟨false, true, false⟩ ⟨[], []⟩
        (some ⟨"p1", "n1", "cat1"⟩) =
      (Resp.created, ⟨[⟨"p1", "n1", "cat1"⟩], []⟩) := by
  refine ⟨by decide, by decide, by decide, by decide, by decide, by decide,
    by decide, by decide⟩

theorem sanity_customer_lifecycle :
    CustomerSvc.createCustomer ⟨false, false, false⟩ ⟨[], []⟩
        (some ⟨"c1", "n1", "g1"⟩) =
      (Resp.created,
        ⟨[⟨"c1", "n1", "g1"⟩], [("c1", .enc ⟨"c1", "n1", "g1"⟩)]⟩) ∧
    CustomerSvc.getCustomer ⟨false, false, true⟩
        ⟨[⟨"c1", "n1", "g1"⟩], [("c1", .enc ⟨"c1", "n1", "g1"⟩)]⟩ "c1" =
      (Resp.ok ⟨"c1", "n1", "g1"⟩,
        ⟨[⟨"c1", "n1", "g1"⟩], [("c1", .enc ⟨"c1", "n1", "g1"⟩)]⟩) ∧
    CustomerSvc.getCustomer ⟨false, false, false⟩ ⟨[], []⟩ "c1" =
      (Resp.serverError, ⟨[], []⟩) ∧
    CustomerSvc.createCustomer ⟨false, false, false⟩
        ⟨[⟨"c1", "n1", "g1"⟩], []⟩ (some ⟨"c1", "n2", "g2"⟩) =
      (Resp.serverError, ⟨[⟨"c1", "n1", "g1"⟩], []⟩) := by
  refine ⟨by decide, by decide, by decide, by decide⟩

theorem sanity_order_export :
    OrderSvc.saveOrdersToS3 ⟨false, false⟩
        [OrderSvc.orderToItem ⟨"o1", "c1", "p1"⟩] [] =
      (Resp.okMsg,
        [("orders_data.json",
          Json.arr [OrderSvc.orderJson ⟨"o1", "c1", "p1"⟩])]) ∧
    OrderSvc.getOrder ⟨false, false⟩ [[("id", .S "o1"), ("customerid", .other)]]
        "o1" = Resp.ok ⟨"o1", "", ""⟩ := by
  exact ⟨rfl, by decide⟩
